import Mathlib

/-!
Verification of the client-side orchestration core of the AI photo editor
(api.js): the server-sent-event stream decoder of sendChatMessage, the
conversation history and its rollback, model selection, and request
validation. The collaborators that live in utils.js (RateLimiter,
sanitizePrompt, prepareImageForUpload, getUserFriendlyError) are not part
of the repository snapshot under verification; where a property depends on
them they are modelled from the specification, and each such definition is
marked `Modelled from the spec:` in its doc comment.

Strings are modelled at code-point granularity (`List Char`): the JS
TextDecoder invoked with the streaming flag reassembles UTF-8 sequences
split across reads, so byte-level chunk boundaries and code-point-level
chunk boundaries induce the same decoded text.
-/

/-- JSON values as produced by the JS builtin JSON.parse, restricted to the
shapes that occur in chat-completion SSE frames: numbers are integers and
string literals carry no escape sequences (none of the payloads examined by
api.js need either). -/
inductive Json where
| null : Json
| bool : Bool → Json
| num : Int → Json
| str : String → Json
| arr : List Json → Json
| obj : List (String × Json) → Json

/-- Drop leading JSON whitespace. -/
def skipWs : List Char → List Char
| [] => []
| c :: cs => if c = ' ' ∨ c = '\n' ∨ c = '\t' ∨ c = '\r' then skipWs cs else c :: cs

/-- Scan a JSON string body up to the closing quote; escape sequences are
outside the modelled subset and make the parse fail (JSON.parse would accept
them, but no payload in this development contains one). -/
def parseStrChars : List Char → Option (List Char × List Char)
| [] => none
| c :: cs =>
  if c = Char.ofNat 34 then some ([], cs)
  else if c = Char.ofNat 92 then none
  else (parseStrChars cs).map (fun p => (c :: p.1, p.2))

/-- Take a maximal run of decimal digits. -/
def takeDigits : List Char → (List Char × List Char)
| [] => ([], [])
| c :: cs =>
  if c.isDigit then
    let p := takeDigits cs
    (c :: p.1, p.2)
  else ([], c :: cs)

/-- Decimal digits to a natural number. -/
def digitsToNat (ds : List Char) : Nat :=
  ds.foldl (fun a c => a * 10 + (c.toNat - 48)) 0

mutual

/-- Fuel-indexed JSON value parser (the fuel bounds nesting depth; every
recursive call first consumes at least one character, so `length + 1` fuel
always suffices at the top level). -/
def parseVal : Nat → List Char → Option (Json × List Char)
| 0, _ => none
| fuel + 1, cs =>
  match skipWs cs with
  | [] => none
  | c :: rest =>
    if c = Char.ofNat 123 then
      match parseObjBody fuel rest with
      | some (fs, r) => some (Json.obj fs, r)
      | none => none
    else if c = Char.ofNat 91 then
      match parseArrBody fuel rest with
      | some (xs, r) => some (Json.arr xs, r)
      | none => none
    else if c = Char.ofNat 34 then
      match parseStrChars rest with
      | some (sc, r) => some (Json.str (String.mk sc), r)
      | none => none
    else if c = Char.ofNat 45 then
      match takeDigits rest with
      | ([], _) => none
      | (ds, r) => some (Json.num (-(Int.ofNat (digitsToNat ds))), r)
    else if c.isDigit then
      match takeDigits (c :: rest) with
      | ([], _) => none
      | (ds, r) => some (Json.num (Int.ofNat (digitsToNat ds)), r)
    else if (c :: rest).take 4 = String.toList "true" then
      some (Json.bool true, (c :: rest).drop 4)
    else if (c :: rest).take 5 = String.toList "false" then
      some (Json.bool false, (c :: rest).drop 5)
    else if (c :: rest).take 4 = String.toList "null" then
      some (Json.null, (c :: rest).drop 4)
    else none

/-- Object members, entered just after the opening brace. -/
def parseObjBody : Nat → List Char → Option (List (String × Json) × List Char)
| 0, _ => none
| fuel + 1, cs =>
  match skipWs cs with
  | [] => none
  | c :: rest =>
    if c = Char.ofNat 125 then some ([], rest)
    else if c = Char.ofNat 34 then
      match parseStrChars rest with
      | none => none
      | some (kc, r1) =>
        match skipWs r1 with
        | [] => none
        | ch :: r2 =>
          if ch = Char.ofNat 58 then
            match parseVal fuel r2 with
            | none => none
            | some (v, r3) =>
              match skipWs r3 with
              | [] => none
              | d :: r4 =>
                if d = Char.ofNat 44 then
                  match parseObjBody fuel r4 with
                  | none => none
                  | some (fs, r5) => some ((String.mk kc, v) :: fs, r5)
                else if d = Char.ofNat 125 then some ([(String.mk kc, v)], r4)
                else none
          else none
    else none

/-- Array elements, entered just after the opening bracket. -/
def parseArrBody : Nat → List Char → Option (List Json × List Char)
| 0, _ => none
| fuel + 1, cs =>
  match skipWs cs with
  | [] => none
  | c :: rest =>
    if c = Char.ofNat 93 then some ([], rest)
    else
      match parseVal fuel (c :: rest) with
      | none => none
      | some (v, r1) =>
        match skipWs r1 with
        | [] => none
        | d :: r2 =>
          if d = Char.ofNat 44 then
            match parseArrBody fuel r2 with
            | none => none
            | some (xs, r3) => some (v :: xs, r3)
          else if d = Char.ofNat 93 then some ([v], r2)
          else none

end

/-- JSON.parse: parse a complete value with nothing but whitespace after it. -/
def jsonParse (s : String) : Option Json :=
  match parseVal (s.length + 1) s.toList with
  | some (v, rest) => if skipWs rest = [] then some v else none
  | none => none

/-- JS truthiness of a parsed JSON value (`if (parsed.error)`,
`if (content)` in api.js). -/
def jsTruthy : Json → Bool
| Json.null => false
| Json.bool b => b
| Json.num n => decide (n ≠ 0)
| Json.str s => decide (s ≠ "")
| Json.arr _ => true
| Json.obj _ => true

/-- JS string coercion, on the shapes that can reach
`fullContent += content` or `new Error(parsed.error.message ...)`. -/
def jsToString : Json → String
| Json.str s => s
| Json.bool true => "true"
| Json.bool false => "false"
| Json.null => "null"
| Json.num n => toString n
| Json.arr _ => ""
| Json.obj _ => "[object Object]"

/-- JS property access `v.k`: defined only on objects, `undefined` (none)
otherwise — exactly the optional-chaining reads done by api.js. -/
def Json.getField : Json → String → Option Json
| Json.obj fs, k => (fs.find? (fun p => p.1 = k)).map Prod.snd
| _, _ => none

/-- JS index access `v[i]` on an array, `undefined` (none) otherwise. -/
def Json.getIdx : Json → Nat → Option Json
| Json.arr xs, i => xs.get? i
| _, _ => none

/-- State of the streaming read loop of sendChatMessage (api.js 594-650):
the line reassembly buffer, the accumulated `fullContent`, the sequence of
`onChunk(content, fullContent)` calls made so far, and the message of the
exception that aborted the loop, if any. -/
@[ext]
structure StreamSt where
  buffer : List Char
  fullContent : String
  emitted : List (String × String)
  errorMsg : Option String
deriving DecidableEq, Repr

/-- The decoder state before the first read: empty buffer, empty content. -/
def initSt : StreamSt := ⟨[], "", [], none⟩

/-- JS String.prototype.trim on the whitespace that occurs in SSE frames. -/
def trimChars (cs : List Char) : List Char :=
  ((cs.dropWhile Char.isWhitespace).reverse.dropWhile Char.isWhitespace).reverse

/-- Split a buffer at its first newline: the indexOf search for a newline and
the two slices (api.js 609-613); none when no complete line is buffered. -/
def breakLine : List Char → Option (List Char × List Char)
| [] => none
| c :: cs =>
  if c = '\n' then some ([], cs)
  else (breakLine cs).map (fun p => (c :: p.1, p.2))

/-- What processing one complete line does to the observable decoder state:
the new `fullContent`, the `onChunk` calls made, and the exception that
escapes the loop body, if any. -/
structure LineEffect where
  newFull : String
  emits : List (String × String)
  err : Option String
deriving DecidableEq, Repr

/-- `parsed.choices?.[0]?.delta?.content` and the `if (content)` emission
(api.js 630-636). -/
def contentEffect (parsed : Json) (full : String) : LineEffect :=
  match (((parsed.getField "choices").bind (fun c => c.getIdx 0)).bind
      (fun c => c.getField "delta")).bind (fun d => d.getField "content") with
  | some c =>
    if jsTruthy c then
      let s := jsToString c
      ⟨full ++ s, [(s, full ++ s)], none⟩
    else ⟨full, [], none⟩
  | none => ⟨full, [], none⟩

/-- The `data:`-payload handler (api.js 619-644). The `[DONE]` sentinel is
skipped with `continue`. A JSON.parse failure lands in the catch block whose
guard (parseError.message compared against the text "Stream error") swallows it. When the parsed
payload has a truthy `error` field the code throws
`new Error` on the error message, defaulted to "Stream error" — but that throw is
caught by the same catch block, so it is swallowed too unless the resulting
message is exactly `"Stream error"` (i.e. unless `parsed.error.message` was
absent or falsy), in which case it is re-thrown and aborts the stream. -/
def dataEffect (data : List Char) (full : String) : LineEffect :=
  if data = String.toList "[DONE]" then ⟨full, [], none⟩
  else
    match jsonParse (String.mk data) with
    | none => ⟨full, [], none⟩
    | some parsed =>
      match parsed.getField "error" with
      | some e =>
        if jsTruthy e then
          let msg :=
            match e.getField "message" with
            | some m => if jsTruthy m then jsToString m else "Stream error"
            | none => "Stream error"
          if msg = "Stream error" then ⟨full, [], some msg⟩
          else ⟨full, [], none⟩
        else contentEffect parsed full
      | none => contentEffect parsed full

/-- One iteration of the inner line loop on an isolated raw line
(api.js 612-645): trim, skip blank and comment lines, dispatch `data: `
lines to the payload handler. -/
def lineEffect (rawLine : List Char) (full : String) : LineEffect :=
  let line := trimChars rawLine
  if line = [] then ⟨full, [], none⟩
  else if line.head? = some (Char.ofNat 58) then ⟨full, [], none⟩
  else if (String.toList "data: ").isPrefixOf line then dataEffect (line.drop 6) full
  else ⟨full, [], none⟩

/-- The inner `while (true)` over the buffer (api.js 608-646), fuel-indexed
so that it is structural: extract and process complete lines until none
remains; an exception thrown by a line escapes immediately (`errorMsg` set),
abandoning the rest of the buffer. Each iteration consumes the line and its
newline, so `buffer.length` fuel always suffices. -/
def processBufferAux : Nat → StreamSt → StreamSt
| 0, st => st
| fuel + 1, st =>
  if st.errorMsg.isSome then st
  else
    match breakLine st.buffer with
    | none => st
    | some (line, rest) =>
      let e := lineEffect line st.fullContent
      match e.err with
      | some msg =>
        { st with buffer := rest, fullContent := e.newFull,
                  emitted := st.emitted ++ e.emits, errorMsg := some msg }
      | none =>
        processBufferAux fuel { st with buffer := rest, fullContent := e.newFull,
                                        emitted := st.emitted ++ e.emits }

/-- The inner line-draining loop, with exactly the fuel it needs. -/
def processBuffer (st : StreamSt) : StreamSt :=
  processBufferAux st.buffer.length st

/-- One iteration of the reader loop (api.js 601-647): append the decoded
chunk to the buffer and drain complete lines. Once an exception has aborted
the loop, later chunks are never read. -/
def feed (st : StreamSt) (chunk : List Char) : StreamSt :=
  if st.errorMsg.isSome then st
  else processBuffer { st with buffer := st.buffer ++ chunk }

/-- The whole streaming read loop over a sequence of network chunks. -/
def runChunks (st : StreamSt) (chunks : List (List Char)) : StreamSt :=
  chunks.foldl feed st

/-- Decoding a stream delivered as one single chunk. -/
def decodeStream (text : List Char) : StreamSt :=
  feed initSt text

/-- Extend the pending buffer of a state with newly arrived text, leaving
every other field alone (proof-side constructor used to state how draining
commutes with arrival). -/
def extendBuffer (st : StreamSt) (b : List Char) : StreamSt :=
  ⟨st.buffer ++ b, st.fullContent, st.emitted, st.errorMsg⟩

/-- Observable equivalence of decoder states: same content, same `onChunk`
calls, same abort; buffers must agree only while the loop is still running
(after an abort the remaining bytes are never read, so the buffer is dead
state). -/
def stEquiv (s t : StreamSt) : Prop :=
  s.fullContent = t.fullContent ∧ s.emitted = t.emitted ∧ s.errorMsg = t.errorMsg ∧
    (s.errorMsg = none → s.buffer = t.buffer)

/-- Conversation roles (api.js pushes only these two). -/
inductive Role where
| user : Role
| assistant : Role
deriving DecidableEq, Repr

/-- One entry of `chatHistory`. -/
structure Turn where
  role : Role
  content : String
deriving DecidableEq, Repr

/-- The conditional pop in the catch block of sendChatMessage (api.js 663-666):
remove the trailing turn iff the log is non-empty and ends in a user turn. -/
def rollbackLastUser (h : List Turn) : List Turn :=
  match h.getLast? with
  | some t => if t.role = Role.user then h.dropLast else h
  | none => h

/-- Whether the log ends in a user turn. -/
def endsInUser (h : List Turn) : Bool :=
  match h.getLast? with
  | some t => decide (t.role = Role.user)
  | none => false

/-- Modelled from the spec: `sanitizePrompt` is defined in utils.js, which
is not part of the repository snapshot under src/. Section 7 of the spec
names only `InvalidInput` for an "empty/invalid prompt", so the model trims
the prompt and rejects an empty result. -/
def sanitizePrompt (s : String) : Option String :=
  let t := String.mk (trimChars s.toList)
  if t = "" then none else some t

/-- Modelled from the spec: `getUserFriendlyError` is defined in utils.js,
which is not part of the repository snapshot under src/. Section 7 only
requires errors to be "normalized to a user-presentable message", so the
model keeps the message text; no claim below depends on its exact output. -/
def getUserFriendlyError (msg : String) : String := msg

/-- Modelled from the spec: the `RateLimiter` class is defined in utils.js,
which is not part of the repository snapshot under src/. Section 4.1 of the
spec: a sliding-window counter over recorded timestamps; `maxCalls` and
`windowDurationMs` are fixed at construction; on every check, timestamps
older than `now - windowDurationMs` are discarded and the call is admitted
iff the remaining count is below capacity; checking has no side effects and
`recordAdmission` is the separate mutating step. Every operation returns
the (possibly updated) limiter state explicitly. -/
structure RateLimiter where
  maxCalls : Nat
  windowMs : Nat
  timestamps : List Nat
deriving DecidableEq, Repr

/-- The timestamps still inside the trailing window (spec section 4.1:
discard entries older than `now - windowDurationMs`). -/
def RateLimiter.purged (rl : RateLimiter) (now : Nat) : List Nat :=
  rl.timestamps.filter (fun t => now ≤ t + rl.windowMs)

/-- Admission check: spec section 4.1, "admitted iff the remaining count is
`< maxCalls`", with "No side effects on `canAdmit` alone". -/
def RateLimiter.canMakeRequest (rl : RateLimiter) (now : Nat) : Bool × RateLimiter :=
  (decide ((rl.purged now).length < rl.maxCalls), rl)

/-- Spec section 6: `remaining` for the status query, without mutation. -/
def RateLimiter.getRemainingRequests (rl : RateLimiter) (now : Nat) : Nat × RateLimiter :=
  (rl.maxCalls - (rl.purged now).length, rl)

/-- Spec section 4.1: duration (ms) until the oldest retained timestamp
falls outside the window; zero if already admittable. No mutation. -/
def RateLimiter.getTimeUntilNextRequest (rl : RateLimiter) (now : Nat) : Nat × RateLimiter :=
  let p := rl.purged now
  if p.length < rl.maxCalls then (0, rl)
  else
    match p.min? with
    | some oldest => (oldest + rl.windowMs - now, rl)
    | none => (0, rl)

/-- Spec section 4.1: `recordAdmission` is the separate explicit mutating
step (with the lazy purge of expired entries). -/
def RateLimiter.recordAdmission (rl : RateLimiter) (now : Nat) : RateLimiter :=
  { rl with timestamps := rl.purged now ++ [now] }

/-- getRateLimitStatus (api.js 472-477): remaining requests and the wait in
whole seconds (`Math.ceil(ms / 1000)`), threading the limiter state of the
two queries it performs. -/
def getRateLimitStatus (rl : RateLimiter) (now : Nat) : (Nat × Nat) × RateLimiter :=
  let r := rl.getRemainingRequests now
  let w := r.2.getTimeUntilNextRequest now
  ((r.1, (w.1 + 999) / 1000), w.2)

/-- checkRateLimit (api.js 159-164): throws the rate-limit message when the
limiter refuses, with the wait rounded up to seconds. -/
def checkRateLimit (rl : RateLimiter) (now : Nat) : Except String Unit :=
  let c := rl.canMakeRequest now
  if c.1 then Except.ok ()
  else
    let w := c.2.getTimeUntilNextRequest now
    Except.error ("Rate limit exceeded. Please wait " ++ toString ((w.1 + 999) / 1000) ++
      " seconds before making another request.")

/-- The `apiRateLimiter` singleton, `new RateLimiter(10, 60000)`
(api.js 152), in its initial state. -/
def apiRateLimiter : RateLimiter := ⟨10, 60000, []⟩

/-- Display metadata of one registry entry. -/
structure ModelInfo where
  name : String
  description : String
deriving DecidableEq, Repr

/-- IMAGE_GENERATION_MODELS (api.js 36-61). -/
def IMAGE_GENERATION_MODELS : List (String × ModelInfo) :=
  [("black-forest-labs/flux.2-pro",
    ⟨"FLUX.2 Pro",
     "A high-end image generation and editing model focused on frontier-level visual quality and reliability. Strong prompt adherence, stable lighting, sharp textures."⟩),
   ("black-forest-labs/flux.2-flex",
    ⟨"FLUX.2 Flex",
     "Excels at rendering complex text, typography, and fine details. Supports multi-reference editing in the same unified architecture."⟩),
   ("google/gemini-3-pro-image-preview",
    ⟨"Gemini 3 Pro Image",
     "Google\x27s latest multimodal model with advanced image generation capabilities and excellent prompt understanding."⟩),
   ("openai/gpt-5-image-mini",
    ⟨"GPT-5 Image Mini",
     "OpenAI\x27s compact image generation model. Fast and efficient with great quality for most use cases."⟩),
   ("openai/gpt-5-image",
    ⟨"GPT-5 Image",
     "OpenAI\x27s flagship image generation model. Best-in-class quality and creativity."⟩),
   ("google/gemini-2.5-flash-image",
    ⟨"Gemini 2.5 Flash Image",
     "Google\x27s fast image generation model. Optimized for speed while maintaining good quality."⟩)]

/-- CHAT_MODELS (api.js 67-116). -/
def CHAT_MODELS : List (String × ModelInfo) :=
  [("anthropic/claude-sonnet-4.5",
    ⟨"Claude Sonnet 4.5",
     "Anthropic\x27s balanced model. Excellent reasoning with fast response times."⟩),
   ("anthropic/claude-opus-4.5",
    ⟨"Claude Opus 4.5",
     "Anthropic\x27s most capable model. Best for complex analysis and nuanced tasks."⟩),
   ("anthropic/claude-haiku-4.5",
    ⟨"Claude Haiku 4.5",
     "Anthropic\x27s fastest model. Lightning quick responses for simple tasks."⟩),
   ("openai/gpt-5.1",
    ⟨"GPT-5.1",
     "OpenAI\x27s flagship model. State-of-the-art reasoning and knowledge."⟩),
   ("openai/gpt-5.1-chat",
    ⟨"GPT-5.1 Chat",
     "OpenAI\x27s conversational model. Optimized for natural dialogue."⟩),
   ("openai/gpt-5-image-mini",
    ⟨"GPT-5 Image Mini",
     "OpenAI\x27s multimodal model. Can understand and discuss images."⟩),
   ("openai/gpt-4.1",
    ⟨"GPT-4.1",
     "OpenAI\x27s reliable workhorse. Great balance of speed and capability."⟩),
   ("x-ai/grok-4.1-fast",
    ⟨"Grok 4.1 Fast",
     "xAI\x27s fast model. Quick responses with real-time knowledge."⟩),
   ("google/gemini-3-pro-preview",
    ⟨"Gemini 3 Pro",
     "Google\x27s advanced model. Excellent multimodal understanding."⟩),
   ("google/gemini-2.5-pro",
    ⟨"Gemini 2.5 Pro",
     "Google\x27s professional model. Great for detailed analysis."⟩),
   ("google/gemini-2.5-flash",
    ⟨"Gemini 2.5 Flash",
     "Google\x27s fast model. Quick responses with good quality."⟩),
   ("google/gemini-2.5-flash-lite-preview-09-2025",
    ⟨"Gemini 2.5 Flash Lite",
     "Google\x27s lightweight model. Fastest responses for simple queries."⟩)]

/-- JS truthiness of `REGISTRY[modelId]`: present iff the lookup yields an
entry (entries are objects, hence truthy). -/
def registryHas (reg : List (String × ModelInfo)) (k : String) : Bool :=
  (reg.find? (fun p => p.1 = k)).isSome

/-- setGenerationModel (api.js 427-431): assign only when the id is a
registry key, otherwise silently keep the current value. -/
def setGenerationModel (modelId : String) (current : String) : String :=
  if registryHas IMAGE_GENERATION_MODELS modelId then modelId else current

/-- setEditModel (api.js 454-458): validated against
IMAGE_GENERATION_MODELS, like the generation setter. -/
def setEditModel (modelId : String) (current : String) : String :=
  if registryHas IMAGE_GENERATION_MODELS modelId then modelId else current

/-- setChatModel (api.js 484-488): validated against CHAT_MODELS. -/
def setChatModel (modelId : String) (current : String) : String :=
  if registryHas CHAT_MODELS modelId then modelId else current

/-- Initial `currentGenerationModel` (api.js 122). -/
def initialGenerationModel : String := "black-forest-labs/flux.2-pro"

/-- Initial `currentEditModel` (api.js 128). -/
def initialEditModel : String := "openai/gpt-5-image-mini"

/-- Initial `currentChatModel` (api.js 134). -/
def initialChatModel : String := "anthropic/claude-sonnet-4.5"

/-- Outcome of the fetch call to /api/chat seen by sendChatMessage:
either a non-2xx response with the `error` field of the parsed error body
(`none` when absent), or an OK response with the streamed chunks. -/
inductive FetchOutcome where
| notOk : Option String → Nat → FetchOutcome
| okStream : List (List Char) → FetchOutcome
deriving DecidableEq, Repr

/-- Decidable equality of operation results. -/
instance exceptDecEq {e a : Type} [DecidableEq e] [DecidableEq a] : DecidableEq (Except e a)
| Except.ok x, Except.ok y =>
  if h : x = y then Decidable.isTrue (by rw [h])
  else Decidable.isFalse (by intro he; cases he; exact h rfl)
| Except.ok _, Except.error _ => Decidable.isFalse (by intro h; cases h)
| Except.error _, Except.ok _ => Decidable.isFalse (by intro h; cases h)
| Except.error x, Except.error y =>
  if h : x = y then Decidable.isTrue (by rw [h])
  else Decidable.isFalse (by intro he; cases he; exact h rfl)

/-- JS `String.prototype.includes` on character lists. -/
def includesSub (needle : List Char) : List Char → Bool
| [] => needle.isEmpty
| c :: t => needle.isPrefixOf (c :: t) || includesSub needle t

/-- What a call to sendChatMessage leaves behind: the final `chatHistory`,
the resolution (ok) or the thrown error message, whether the network call
was reached, and the `model` field serialized into the request body when it
was (api.js 579-584). -/
structure ChatResult where
  history : List Turn
  outcome : Except String String
  networkCalled : Bool
  forwardedModel : Option String
deriving DecidableEq, Repr

/-- The tail of the catch block of sendChatMessage (api.js 667-670): rate-limit
errors are rethrown verbatim, anything else is normalized. -/
def wrapCatch (msg : String) : String :=
  if includesSub (String.toList "rate limit") (String.toList (msg.toLower)) = true then msg
  else getUserFriendlyError msg

/-- The `errorData.error || default` fallback (api.js 591): the error field
is used only when present and truthy (a non-empty string). -/
def errorBodyOr (errField : Option String) (fallback : String) : String :=
  match errField with
  | some e => if e = "" then fallback else e
  | none => fallback

/-- sendChatMessage (api.js 555-672). In order: the rate-limit gate and the
sanitizer run before anything else (errors there leave the history alone and
never reach the network); the user turn is pushed optimistically; a non-2xx
response pops the just-pushed turn (line 590) and throws into the catch
block, which performs the conditional pop again (lines 663-666); an OK
response is decoded by the streaming loop; a stream abort throws into the
same catch block; otherwise the assistant turn is appended iff any content
accumulated, and the call resolves with the content or the fallback text. -/
def sendChatMessage (hist : List Turn) (message : String) (modelArg : Option String)
    (currentChat : String) (rl : RateLimiter) (now : Nat) (fetch : FetchOutcome) :
    ChatResult :=
  match checkRateLimit rl now with
  | Except.error e => ⟨hist, Except.error e, false, none⟩
  | Except.ok _ =>
    match sanitizePrompt message with
    | none => ⟨hist, Except.error "Invalid message provided", false, none⟩
    | some m =>
      let selectedModel := modelArg.getD currentChat
      let hist1 := hist ++ [⟨Role.user, m⟩]
      match fetch with
      | FetchOutcome.notOk errField status =>
        let hist2 := hist1.dropLast
        let raw := errorBodyOr errField ("API request failed with status " ++ toString status)
        ⟨rollbackLastUser hist2, Except.error (wrapCatch raw), true, some selectedModel⟩
      | FetchOutcome.okStream chunks =>
        let st := runChunks initSt chunks
        match st.errorMsg with
        | some e => ⟨rollbackLastUser hist1, Except.error (wrapCatch e), true, some selectedModel⟩
        | none =>
          if st.fullContent = "" then
            ⟨hist1, Except.ok "No response received", true, some selectedModel⟩
          else
            ⟨hist1 ++ [⟨Role.assistant, st.fullContent⟩], Except.ok st.fullContent, true,
             some selectedModel⟩

/-- The request body generateImage serializes (api.js 365-368). -/
structure GenRequest where
  prompt : String
  model : String
deriving DecidableEq, Repr

/-- generateImage (api.js 347-368), up to the point the network request is
fired: the rate-limit gate, the sanitizer, and the `model || current`
fallback. An error result means the fetch was never reached; an ok result
carries exactly the body fields sent. -/
def generateImage (rl : RateLimiter) (now : Nat) (prompt : String)
    (modelArg : Option String) (currentGen : String) : Except String GenRequest :=
  match checkRateLimit rl now with
  | Except.error e => Except.error e
  | Except.ok _ =>
    match sanitizePrompt prompt with
    | none => Except.error "Invalid prompt provided"
    | some p => Except.ok ⟨p, modelArg.getD currentGen⟩

/-- Modelled from the spec: `prepareImageForUpload` is defined in utils.js,
which is not part of the repository snapshot under src/. Spec section 4.2:
if the already-encoded size is within `maxBytes`, return the payload
unchanged; otherwise walk the decreasing quality/dimension schedule
(abstracted here as the list of candidate re-encodings, in order) until one
fits, and fail with the ImageTooLarge condition when the floor is reached
without fitting. The payload is the encoded byte sequence. -/
def prepareImageForUpload (img : List Nat) (maxBytes : Nat)
    (schedule : List (List Nat)) : Except String (List Nat) :=
  if img.length ≤ maxBytes then Except.ok img
  else
    match schedule.find? (fun c => c.length ≤ maxBytes) with
    | some c => Except.ok c
    | none => Except.error "ImageTooLarge"

/-- The request body editImage serializes (api.js 242-246). -/
structure EditRequest where
  prompt : String
  image : List Nat
  model : String
deriving DecidableEq, Repr

/-- editImage (api.js 221-247), up to the point the network request is
fired: the rate-limit gate, the sanitizer, the `model || current` fallback
and the image preparation. An error result means the fetch was never
reached. -/
def editImage (rl : RateLimiter) (now : Nat) (img : List Nat) (maxBytes : Nat)
    (schedule : List (List Nat)) (prompt : String) (modelArg : Option String)
    (currentEdit : String) : Except String EditRequest :=
  match checkRateLimit rl now with
  | Except.error e => Except.error e
  | Except.ok _ =>
    match sanitizePrompt prompt with
    | none => Except.error "Invalid prompt provided"
    | some p =>
      let selectedModel := modelArg.getD currentEdit
      match prepareImageForUpload img maxBytes schedule with
      | Except.error e => Except.error (wrapCatch e)
      | Except.ok prepared => Except.ok ⟨p, prepared, selectedModel⟩

/-- Whether an operation failed (threw). -/
def isErr {α : Type} : Except String α → Bool
| Except.error _ => true
| Except.ok _ => false
/-- `breakLine` consumes the line and its newline, so the remainder is
strictly shorter. -/
theorem breakLine_some_length :
    ∀ (cs l r : List Char), breakLine cs = some (l, r) → r.length < cs.length := by
  intro cs
  induction cs with
  | nil => intro l r h; simp [breakLine] at h
  | cons c cs ih =>
    intro l r h
    simp only [breakLine] at h
    split at h
    · injection h with h2
      rw [Prod.mk.injEq] at h2
      obtain ⟨hl, hr⟩ := h2
      subst hr
      simp
    · cases h1 : breakLine cs with
      | none => rw [h1] at h; simp at h
      | some p =>
        rw [h1] at h
        simp only [Option.map_some'] at h
        injection h with h2
        rw [Prod.mk.injEq] at h2
        obtain ⟨hl, hr⟩ := h2
        subst hr
        have hlt := ih p.1 p.2 (by rw [h1])
        simp only [List.length_cons]
        omega

/-- The fuel of the line-draining loop is irrelevant as long as it covers
the buffer length. -/
theorem processBufferAux_congr :
    ∀ (f1 f2 : Nat) (st : StreamSt), st.buffer.length ≤ f1 → st.buffer.length ≤ f2 →
    processBufferAux f1 st = processBufferAux f2 st := by
  intro f1
  induction f1 with
  | zero =>
    intro f2 st h1 h2
    have hb : st.buffer = [] := List.length_eq_zero.mp (Nat.le_zero.mp h1)
    cases f2 with
    | zero => rfl
    | succ m =>
      simp only [processBufferAux, hb]
      split
      · rfl
      · rfl
  | succ k ih =>
    intro f2 st h1 h2
    cases f2 with
    | zero =>
      have hb : st.buffer = [] := List.length_eq_zero.mp (Nat.le_zero.mp h2)
      simp only [processBufferAux, hb]
      split
      · rfl
      · rfl
    | succ m =>
      simp only [processBufferAux]
      split
      · rfl
      · cases hL : breakLine st.buffer with
        | none => rfl
        | some p =>
          obtain ⟨line, rest⟩ := p
          dsimp only
          cases hE : (lineEffect line st.fullContent).err with
          | some msg => rfl
          | none =>
            have hlt := breakLine_some_length st.buffer line rest hL
            show processBufferAux k _ = processBufferAux m _
            apply ih
            · show rest.length ≤ k
              omega
            · show rest.length ≤ m
              omega

/-- Any sufficient fuel computes `processBuffer`. -/
theorem processBufferAux_eq (f : Nat) (st : StreamSt) (h : st.buffer.length ≤ f) :
    processBufferAux f st = processBuffer st :=
  processBufferAux_congr f st.buffer.length st h (Nat.le_refl _)

/-- An already-aborted loop does nothing. -/
theorem processBuffer_errored (st : StreamSt) (h : st.errorMsg.isSome) :
    processBuffer st = st := by
  unfold processBuffer
  cases hb : st.buffer with
  | nil => rfl
  | cons c cs =>
    simp only [List.length_cons, processBufferAux, h]
    rfl

/-- With no complete line buffered, the loop exits at once. -/
theorem processBuffer_noline (st : StreamSt) (h : breakLine st.buffer = none) :
    processBuffer st = st := by
  unfold processBuffer
  cases hb : st.buffer with
  | nil => rfl
  | cons c cs =>
    simp only [List.length_cons, processBufferAux]
    split
    · rfl
    · rw [h]

/-- A line whose processing throws sets the error and stops the loop. -/
theorem processBuffer_step_err (st : StreamSt) (line rest : List Char) (msg : String)
    (hne : st.errorMsg = none) (hL : breakLine st.buffer = some (line, rest))
    (hE : (lineEffect line st.fullContent).err = some msg) :
    processBuffer st =
      { st with buffer := rest, fullContent := (lineEffect line st.fullContent).newFull,
                emitted := st.emitted ++ (lineEffect line st.fullContent).emits,
                errorMsg := some msg } := by
  unfold processBuffer
  cases hb : st.buffer with
  | nil => rw [hb] at hL; simp [breakLine] at hL
  | cons c cs =>
    simp only [List.length_cons, processBufferAux, hne, Option.isSome_none, Bool.false_eq_true,
      if_false]
    rw [hL]
    dsimp only
    rw [hE]

/-- A line whose processing returns normally updates the state and the loop
continues on the remaining buffer. -/
theorem processBuffer_step (st : StreamSt) (line rest : List Char)
    (hne : st.errorMsg = none) (hL : breakLine st.buffer = some (line, rest))
    (hE : (lineEffect line st.fullContent).err = none) :
    processBuffer st =
      processBuffer { st with buffer := rest,
                              fullContent := (lineEffect line st.fullContent).newFull,
                              emitted := st.emitted ++ (lineEffect line st.fullContent).emits } := by
  unfold processBuffer
  cases hb : st.buffer with
  | nil => rw [hb] at hL; simp [breakLine] at hL
  | cons c cs =>
    simp only [List.length_cons, processBufferAux, hne, Option.isSome_none, Bool.false_eq_true,
      if_false]
    rw [hL]
    dsimp only
    rw [hE]
    apply processBufferAux_congr
    · show rest.length ≤ cs.length
      have hlt := breakLine_some_length st.buffer line rest hL
      rw [hb] at hlt
      simp only [List.length_cons] at hlt
      omega
    · exact Nat.le_refl _

/-- Prepending a processed line commutes with extending the buffer. -/
theorem breakLine_append_some :
    ∀ (a : List Char) (l r b : List Char), breakLine a = some (l, r) →
    breakLine (a ++ b) = some (l, r ++ b) := by
  intro a
  induction a with
  | nil => intro l r b h; simp [breakLine] at h
  | cons c cs ih =>
    intro l r b h
    simp only [breakLine] at h
    simp only [List.cons_append, breakLine]
    split at h
    · injection h with h2
      rw [Prod.mk.injEq] at h2
      obtain ⟨hl, hr⟩ := h2
      subst hl; subst hr
      split
      · rfl
      · rename_i hc; exact absurd (by assumption) hc
    · rename_i hc
      rw [if_neg hc]
      cases h1 : breakLine cs with
      | none => rw [h1] at h; simp at h
      | some p =>
        rw [h1] at h
        simp only [Option.map_some'] at h
        injection h with h2
        rw [Prod.mk.injEq] at h2
        obtain ⟨hl, hr⟩ := h2
        subst hl; subst hr
        show Option.map (fun p => (c :: p.1, p.2)) (breakLine (cs ++ b)) = some (c :: p.1, p.2 ++ b)
        rw [ih p.1 p.2 b h1]
        rfl

/-- Draining the buffer commutes with the arrival of further text: the
lines completed by the extension are exactly those the already-drained
state completes. -/
theorem processBuffer_append :
    ∀ (n : Nat) (buf : List Char) (full : String) (em : List (String × String))
      (err : Option String), buf.length ≤ n → ∀ b : List Char,
    processBuffer (extendBuffer ⟨buf, full, em, err⟩ b) =
      processBuffer (extendBuffer (processBuffer ⟨buf, full, em, err⟩) b) := by
  intro n
  induction n with
  | zero =>
    intro buf full em err h b
    have hb : buf = [] := List.length_eq_zero.mp (Nat.le_zero.mp h)
    subst hb
    rw [processBuffer_noline ⟨[], full, em, err⟩ rfl]
  | succ k ih =>
    intro buf full em err h b
    cases err with
    | some e =>
      rw [processBuffer_errored ⟨buf, full, em, some e⟩ rfl]
    | none =>
      cases hL : breakLine buf with
      | none =>
        rw [processBuffer_noline ⟨buf, full, em, none⟩ hL]
      | some p =>
        obtain ⟨line, rest⟩ := p
        have hLb : breakLine (buf ++ b) = some (line, rest ++ b) :=
          breakLine_append_some buf line rest b hL
        cases hE : (lineEffect line full).err with
        | some msg =>
          have h1 := processBuffer_step_err ⟨buf ++ b, full, em, none⟩
            line (rest ++ b) msg rfl hLb hE
          have h2 := processBuffer_step_err ⟨buf, full, em, none⟩ line rest msg rfl hL hE
          show processBuffer ⟨buf ++ b, full, em, none⟩ =
            processBuffer (extendBuffer (processBuffer ⟨buf, full, em, none⟩) b)
          rw [h1, h2]
          exact (processBuffer_errored
            (extendBuffer ⟨rest, (lineEffect line full).newFull,
              em ++ (lineEffect line full).emits, some msg⟩ b) rfl).symm
        | none =>
          have h1 := processBuffer_step ⟨buf ++ b, full, em, none⟩
            line (rest ++ b) rfl hLb hE
          have h2 := processBuffer_step ⟨buf, full, em, none⟩ line rest rfl hL hE
          show processBuffer ⟨buf ++ b, full, em, none⟩ =
            processBuffer (extendBuffer (processBuffer ⟨buf, full, em, none⟩) b)
          rw [h1, h2]
          have hlt := breakLine_some_length buf line rest hL
          exact ih rest ((lineEffect line full).newFull)
            (em ++ (lineEffect line full).emits) none (by omega) b

/-- Observable equivalence is reflexive. -/
theorem stEquiv_refl (s : StreamSt) : stEquiv s s :=
  ⟨rfl, rfl, rfl, fun _ => rfl⟩

/-- Observable equivalence is transitive. -/
theorem stEquiv_trans {a b c : StreamSt} (h1 : stEquiv a b) (h2 : stEquiv b c) :
    stEquiv a c := by
  obtain ⟨f1, e1, m1, b1⟩ := h1
  obtain ⟨f2, e2, m2, b2⟩ := h2
  refine ⟨f1.trans f2, e1.trans e2, m1.trans m2, fun hn => ?_⟩
  rw [b1 hn]
  exact b2 (m1 ▸ hn)

/-- An aborted loop ignores arriving chunks (the reader is never polled
again). -/
theorem feed_errored (st : StreamSt) (c : List Char) (h : st.errorMsg.isSome = true) :
    feed st c = st := by
  simp [feed, h]

/-- A running loop appends the chunk and drains. -/
theorem feed_not_errored (st : StreamSt) (c : List Char) (h : st.errorMsg = none) :
    feed st c = processBuffer (extendBuffer st c) := by
  unfold feed extendBuffer
  rw [h]
  rfl

/-- Feeding the same chunk preserves observable equivalence. -/
theorem feed_respects {s t : StreamSt} (c : List Char) (h : stEquiv s t) :
    stEquiv (feed s c) (feed t c) := by
  obtain ⟨hf, he, hm, hb⟩ := h
  cases hs : s.errorMsg with
  | some e =>
    have ht : t.errorMsg = some e := hm ▸ hs
    rw [feed_errored s c (by rw [hs]; rfl), feed_errored t c (by rw [ht]; rfl)]
    exact ⟨hf, he, hm, hb⟩
  | none =>
    have hteq : t = s := by
      ext1
      · exact (hb hs).symm
      · exact hf.symm
      · exact he.symm
      · exact hm.symm
    rw [hteq]
    exact stEquiv_refl _

/-- Feeding two chunks one after the other is observably the same as
feeding their concatenation (buffers may differ only after an abort, when
they are dead state). -/
theorem feed_append_equiv (s : StreamSt) (a b : List Char) :
    stEquiv (feed (feed s a) b) (feed s (a ++ b)) := by
  cases hs : s.errorMsg with
  | some e =>
    rw [feed_errored s a (by rw [hs]; rfl), feed_errored s b (by rw [hs]; rfl),
      feed_errored s (a ++ b) (by rw [hs]; rfl)]
    exact stEquiv_refl s
  | none =>
    have hsa : extendBuffer s a = ⟨s.buffer ++ a, s.fullContent, s.emitted, none⟩ := by
      unfold extendBuffer; rw [hs]
    have hcomm :
        processBuffer (extendBuffer (extendBuffer s a) b) =
          processBuffer (extendBuffer (processBuffer (extendBuffer s a)) b) := by
      rw [hsa]
      exact processBuffer_append (s.buffer ++ a).length (s.buffer ++ a) s.fullContent
        s.emitted none (Nat.le_refl _) b
    have hsab : feed s (a ++ b) = processBuffer (extendBuffer (extendBuffer s a) b) := by
      rw [feed_not_errored s (a ++ b) hs]
      unfold extendBuffer
      rw [List.append_assoc]
    have hfa : feed s a = processBuffer (extendBuffer s a) := feed_not_errored s a hs
    cases ht : (feed s a).errorMsg with
    | none =>
      rw [feed_not_errored (feed s a) b ht, hsab, hfa, hcomm]
      exact stEquiv_refl _
    | some m =>
      rw [feed_errored (feed s a) b (by rw [ht]; rfl), hsab, hcomm, ← hfa]
      have hext : processBuffer (extendBuffer (feed s a) b) = extendBuffer (feed s a) b :=
        processBuffer_errored _ (by show (feed s a).errorMsg.isSome = true; rw [ht]; rfl)
      rw [hext]
      refine ⟨rfl, rfl, rfl, fun hn => ?_⟩
      rw [ht] at hn
      cases hn

/-- Chunk-by-chunk decoding is observably the decoding of the concatenated
text: content, emissions and abort state never depend on where the network
happened to split the byte stream. -/
theorem runChunks_flatten_equiv (cs : List (List Char)) :
    stEquiv (runChunks initSt cs) (feed initSt cs.flatten) := by
  induction cs using List.reverseRecOn with
  | nil =>
    have h0 : feed initSt ([] : List (List Char)).flatten = initSt := by decide
    rw [h0]
    exact stEquiv_refl _
  | append_singleton cs c ih =>
    have h1 : runChunks initSt (cs ++ [c]) = feed (runChunks initSt cs) c := by
      unfold runChunks
      rw [List.foldl_append]
      rfl
    have h2 : (cs ++ [c]).flatten = cs.flatten ++ c := by
      rw [List.flatten_append]
      simp
    rw [h1, h2]
    exact stEquiv_trans (feed_respects c ih) (feed_append_equiv initSt cs.flatten c)

/-- Appending a user turn makes the log end in a user turn. -/
theorem endsInUser_concat_user (hist : List Turn) (q : String) :
    endsInUser (hist ++ [⟨Role.user, q⟩]) = true := by
  unfold endsInUser
  rw [List.getLast?_concat]
  rfl

/-- The conditional pop removes exactly a just-appended user turn. -/
theorem rollbackLastUser_concat_user (hist : List Turn) (q : String) :
    rollbackLastUser (hist ++ [⟨Role.user, q⟩]) = hist := by
  unfold rollbackLastUser
  rw [List.getLast?_concat]
  show (if (Turn.mk Role.user q).role = Role.user then (hist ++ [Turn.mk Role.user q]).dropLast
    else hist ++ [Turn.mk Role.user q]) = hist
  rw [if_pos rfl, List.dropLast_concat]

/-- The conditional pop is a no-op on a log that does not end in a user
turn. -/
theorem rollbackLastUser_of_not_user (hist : List Turn) (h : endsInUser hist = false) :
    rollbackLastUser hist = hist := by
  unfold rollbackLastUser
  unfold endsInUser at h
  cases hl : hist.getLast? with
  | none => rfl
  | some t =>
    rw [hl] at h
    simp only [decide_eq_false_iff_not] at h
    dsimp only
    rw [if_neg h]

/-- A passing rate-limit gate returns normally. -/
theorem checkRateLimit_ok (rl : RateLimiter) (now : Nat)
    (h : (rl.canMakeRequest now).1 = true) : checkRateLimit rl now = Except.ok () := by
  simp [checkRateLimit, h]

/-- Setter folds stay inside a registry once started inside it. -/
theorem registryHas_foldl (reg : List (String × ModelInfo)) (c : String) (ms : List String)
    (h : registryHas reg c = true) :
    registryHas reg (ms.foldl (fun cur m => if registryHas reg m then m else cur) c) = true := by
  induction ms generalizing c with
  | nil => exact h
  | cons m ms ih =>
    simp only [List.foldl_cons]
    by_cases hm : registryHas reg m = true
    · rw [if_pos hm]
      exact ih _ hm
    · rw [if_neg hm]
      exact ih _ h

/-- C1 (amended): a data line equal to the `[DONE]` sentinel is itself
skipped — it emits no increment, contributes no content and raises no
error — but it does not terminate the decoder: `continue` (api.js 620)
returns to the loop, so data lines delivered after it still emit
increments, and production ends only when the byte stream itself ends. -/
theorem done_line_skipped (full : String) :
    lineEffect (String.toList "data: [DONE]") full = ⟨full, [], none⟩ := rfl

/-- C1 (counterexample): a stream that delivers a content frame after the
`[DONE]` sentinel still emits that increment — dispatching the sentinel
does not end production as the claim states. -/
theorem done_line_not_terminal_cex :
    (decodeStream (String.toList
      "data: [DONE]\ndata: \x7b\"choices\":[\x7b\"delta\":\x7b\"content\":\"x\"\x7d\x7d]\x7d\n")).emitted
      = [("x", "x")] := by decide

/-- C2 (code bug, evaluated at the failing input): a data line whose
payload carries `error: \x7bmessage: "boom"\x7d` is thrown by api.js 627 but
immediately re-caught by the parse-error handler at 637, whose guard
whose guard compares parseError.message against "Stream error" classifies it as a parse failure:
the error is logged and swallowed, the stream is NOT rejected, and later
frames keep emitting (first conjunct). A parse failure is swallowed as the
claim says (fourth conjunct). Only an error payload whose `message` field
is absent or falsy — so that the thrown message is exactly "Stream error" —
actually propagates (third conjunct). -/
theorem stream_error_swallowed_eval :
    (decodeStream (String.toList
        ("data: \x7b\"error\":\x7b\"message\":\"boom\"\x7d\x7d\n" ++
         "data: \x7b\"choices\":[\x7b\"delta\":\x7b\"content\":\"x\"\x7d\x7d]\x7d\n")))
      = ⟨[], "x", [("x", "x")], none⟩ ∧
    dataEffect (String.toList "\x7b\"error\":\x7b\"message\":\"boom\"\x7d\x7d") "" = ⟨"", [], none⟩ ∧
    dataEffect (String.toList "\x7b\"error\":\x7b\x7d\x7d") "" = ⟨"", [], some "Stream error"⟩ ∧
    dataEffect (String.toList "\x7boops") "" = ⟨"", [], none⟩ := by
  refine ⟨by decide, by decide, by decide, by decide⟩

/-- C4: the observable behaviour of the decoder — the sequence of `onChunk`
increments, the accumulated content, and the abort state — does not depend
on how the byte stream was split into chunks (first conjunct, for every
split); in particular the concrete fragmented frame of the spec yields exactly
the single increment "Hello" (second conjunct). -/
theorem decode_chunk_split_independent (cs : List (List Char)) :
    ((runChunks initSt cs).emitted = (decodeStream cs.flatten).emitted ∧
     (runChunks initSt cs).fullContent = (decodeStream cs.flatten).fullContent ∧
     (runChunks initSt cs).errorMsg = (decodeStream cs.flatten).errorMsg) ∧
    (runChunks initSt
      [String.toList "data: \x7b\"choices\":[\x7b\"delta\":\x7b\"content\":\"He",
       String.toList "llo\"\x7d\x7d]\x7d\n\n"]).emitted = [("Hello", "Hello")] := by
  constructor
  · have h := runChunks_flatten_equiv cs
    exact ⟨h.2.1, h.1, h.2.2.1⟩
  · decide

/-- C6: the admission check and the status query return the rate limiter
state unchanged — only `recordAdmission` mutates the recorded timestamps. -/
theorem rate_check_no_mutation (rl : RateLimiter) (now : Nat) :
    (rl.canMakeRequest now).2 = rl ∧ (getRateLimitStatus rl now).2 = rl ∧
    (rl.recordAdmission now).timestamps = rl.purged now ++ [now] := by
  refine ⟨rfl, ?_, rfl⟩
  unfold getRateLimitStatus RateLimiter.getTimeUntilNextRequest RateLimiter.getRemainingRequests
  dsimp only
  split
  · rfl
  · split <;> rfl

/-- C8: preparation is an idempotent no-op within budget — an image whose
encoded size is already within `maxBytes` is returned byte-identical, and
only oversized images enter the re-encoding schedule. -/
theorem prepare_idempotent_within_budget (img : List Nat) (maxBytes : Nat)
    (schedule : List (List Nat)) (h : img.length ≤ maxBytes) :
    prepareImageForUpload img maxBytes schedule = Except.ok img := by
  unfold prepareImageForUpload
  rw [if_pos h]

/-- C8 (witness). -/
theorem prepare_idempotent_within_budget_witness :
    prepareImageForUpload [7, 8, 9] 5 [] = Except.ok [7, 8, 9] :=
  prepare_idempotent_within_budget [7, 8, 9] 5 [] (by decide)

/-- C10: the selected model ids are always keys of their registries: each
setter ignores unknown ids, and the initial values are registry keys, so
any sequence of setter calls keeps `currentGenerationModel` and
`currentEditModel` inside IMAGE_GENERATION_MODELS and `currentChatModel`
inside CHAT_MODELS. -/
theorem current_models_always_registry_keys :
    (∀ ms : List String,
      registryHas IMAGE_GENERATION_MODELS
        (ms.foldl (fun cur m => setGenerationModel m cur) initialGenerationModel) = true) ∧
    (∀ ms : List String,
      registryHas IMAGE_GENERATION_MODELS
        (ms.foldl (fun cur m => setEditModel m cur) initialEditModel) = true) ∧
    (∀ ms : List String,
      registryHas CHAT_MODELS
        (ms.foldl (fun cur m => setChatModel m cur) initialChatModel) = true) := by
  refine ⟨fun ms => ?_, fun ms => ?_, fun ms => ?_⟩
  · exact registryHas_foldl IMAGE_GENERATION_MODELS initialGenerationModel ms (by decide)
  · exact registryHas_foldl IMAGE_GENERATION_MODELS initialEditModel ms (by decide)
  · exact registryHas_foldl CHAT_MODELS initialChatModel ms (by decide)

/-- C3 (counterexample): when the pre-call history already ends in a user
turn (reachable: a successful call with an empty stream leaves the user
turn unanswered, see C9), a non-2xx failure removes TWO turns: line 590
pops the just-appended turn and the catch block (lines 663-666) pops again
because the log still ends in a user turn. The history is left empty, not
equal to its pre-call value `[user "a"]`. -/
theorem rollback_double_pop_cex :
    (sendChatMessage [⟨Role.user, "a"⟩] "b" none initialChatModel apiRateLimiter 0
      (FetchOutcome.notOk none 500)).history = ([] : List Turn) ∧
    ([⟨Role.user, "a"⟩] : List Turn) ≠ ([] : List Turn) := by
  refine ⟨by decide, by decide⟩

/-- C3 (amended): when the pre-call history does NOT end in a user turn,
rollback is exact: a non-2xx response and a mid-stream error both leave the
history exactly equal to its pre-call value, and a further rollback attempt
is then a no-op, since rollback only removes a trailing user turn. (When
the pre-call history ends in a user turn, a non-2xx failure also removes
that earlier turn — see the counterexample.) -/
theorem rollback_exact_amended (rl : RateLimiter) (now : Nat) (hist : List Turn)
    (p q : String) (modelArg : Option String) (chatCur : String)
    (errField : Option String) (status : Nat) (chunks : List (List Char))
    (hok : (rl.canMakeRequest now).1 = true)
    (hp : sanitizePrompt p = some q)
    (hend : endsInUser hist = false) :
    (sendChatMessage hist p modelArg chatCur rl now
        (FetchOutcome.notOk errField status)).history = hist ∧
    ((runChunks initSt chunks).errorMsg.isSome = true →
      (sendChatMessage hist p modelArg chatCur rl now
        (FetchOutcome.okStream chunks)).history = hist) ∧
    rollbackLastUser hist = hist := by
  have hcrl := checkRateLimit_ok rl now hok
  refine ⟨?_, ?_, rollbackLastUser_of_not_user hist hend⟩
  · unfold sendChatMessage
    rw [hcrl, hp]
    dsimp only
    rw [List.dropLast_concat]
    exact rollbackLastUser_of_not_user hist hend
  · intro hstream
    unfold sendChatMessage
    rw [hcrl, hp]
    dsimp only
    obtain ⟨e, he⟩ := Option.isSome_iff_exists.mp hstream
    rw [he]
    dsimp only
    exact rollbackLastUser_concat_user hist q

/-- C3 (witness). -/
theorem rollback_exact_amended_witness :
    ((sendChatMessage [] "hi" none initialChatModel apiRateLimiter 0
        (FetchOutcome.notOk none 500)).history = ([] : List Turn)) ∧
    ((runChunks initSt ([] : List (List Char))).errorMsg.isSome = true →
      (sendChatMessage [] "hi" none initialChatModel apiRateLimiter 0
        (FetchOutcome.okStream [])).history = ([] : List Turn)) ∧
    rollbackLastUser [] = ([] : List Turn) :=
  rollback_exact_amended apiRateLimiter 0 [] "hi" "hi" none initialChatModel none 500 []
    (by decide) (by decide) (by decide)

/-- C5: when the rate limiter refuses or the message sanitizes to empty,
sendChatMessage throws with the history untouched and the network never
reached (no turn was appended, so no rollback happens), and generateImage
and editImage likewise throw before building their requests. -/
theorem validation_before_network (rl : RateLimiter) (now : Nat) (hist : List Turn)
    (message : String) (modelArg : Option String) (chatCur genCur editCur : String)
    (fetch : FetchOutcome) (img : List Nat) (maxB : Nat) (sched : List (List Nat))
    (h : (rl.canMakeRequest now).1 = false ∨ sanitizePrompt message = none) :
    (sendChatMessage hist message modelArg chatCur rl now fetch).history = hist ∧
    (sendChatMessage hist message modelArg chatCur rl now fetch).networkCalled = false ∧
    isErr (sendChatMessage hist message modelArg chatCur rl now fetch).outcome = true ∧
    isErr (generateImage rl now message modelArg genCur) = true ∧
    isErr (editImage rl now img maxB sched message modelArg editCur) = true := by
  cases hc : checkRateLimit rl now with
  | error e =>
    unfold sendChatMessage generateImage editImage
    rw [hc]
    exact ⟨rfl, rfl, rfl, rfl, rfl⟩
  | ok u =>
    have hs : sanitizePrompt message = none := by
      cases h with
      | inl hlim =>
        exfalso
        simp [checkRateLimit, hlim] at hc
      | inr hsan => exact hsan
    unfold sendChatMessage generateImage editImage
    rw [hc, hs]
    exact ⟨rfl, rfl, rfl, rfl, rfl⟩

/-- C5 (witness): a message that sanitizes to empty. -/
theorem validation_before_network_witness :
    (sendChatMessage [] " " none initialChatModel apiRateLimiter 0
      (FetchOutcome.okStream [])).history = ([] : List Turn) ∧
    (sendChatMessage [] " " none initialChatModel apiRateLimiter 0
      (FetchOutcome.okStream [])).networkCalled = false ∧
    isErr (sendChatMessage [] " " none initialChatModel apiRateLimiter 0
      (FetchOutcome.okStream [])).outcome = true ∧
    isErr (generateImage apiRateLimiter 0 " " none initialGenerationModel) = true ∧
    isErr (editImage apiRateLimiter 0 [] 0 [] " " none initialEditModel) = true :=
  validation_before_network apiRateLimiter 0 [] " " none initialChatModel
    initialGenerationModel initialEditModel (FetchOutcome.okStream []) [] 0 []
    (Or.inr (by decide))

/-- C7 (counterexample): a caller-supplied model id is forwarded verbatim;
generateImage performs no registry lookup on it (`model ||
currentGenerationModel`, api.js 357), so an id that is not a registry key
is still sent as the `model` field of the request. -/
theorem model_id_forwarded_unvalidated_cex :
    generateImage apiRateLimiter 0 "a scenic mountain" (some "not-a-registered-model")
      initialGenerationModel = Except.ok ⟨"a scenic mountain", "not-a-registered-model"⟩ ∧
    registryHas IMAGE_GENERATION_MODELS "not-a-registered-model" = false := by
  refine ⟨by decide, by decide⟩

/-- C7 (amended): the registry validates ids supplied through the setters,
not per-call ids; a call that supplies no explicit id forwards the current
selection, which is a registry key whenever the current selection is one
(and C10 shows it always is). -/
theorem default_model_in_registry (rl : RateLimiter) (now : Nat) (p q : String)
    (hist : List Turn) (genCur editCur chatCur : String) (fetch : FetchOutcome)
    (img : List Nat) (maxB : Nat) (sched : List (List Nat)) (img2 : List Nat)
    (hok : (rl.canMakeRequest now).1 = true)
    (hp : sanitizePrompt p = some q)
    (hg : registryHas IMAGE_GENERATION_MODELS genCur = true)
    (he : registryHas IMAGE_GENERATION_MODELS editCur = true)
    (hc : registryHas CHAT_MODELS chatCur = true)
    (himg : prepareImageForUpload img maxB sched = Except.ok img2) :
    (generateImage rl now p none genCur = Except.ok ⟨q, genCur⟩ ∧
      registryHas IMAGE_GENERATION_MODELS genCur = true) ∧
    (editImage rl now img maxB sched p none editCur = Except.ok ⟨q, img2, editCur⟩ ∧
      registryHas IMAGE_GENERATION_MODELS editCur = true) ∧
    ((sendChatMessage hist p none chatCur rl now fetch).forwardedModel = some chatCur ∧
      registryHas CHAT_MODELS chatCur = true) := by
  have hcrl := checkRateLimit_ok rl now hok
  refine ⟨⟨?_, hg⟩, ⟨?_, he⟩, ⟨?_, hc⟩⟩
  · unfold generateImage
    rw [hcrl, hp]
    rfl
  · unfold editImage
    rw [hcrl, hp]
    dsimp only
    rw [himg]
    rfl
  · cases fetch with
    | notOk ef st =>
      unfold sendChatMessage
      rw [hcrl, hp]
      rfl
    | okStream chunks =>
      unfold sendChatMessage
      rw [hcrl, hp]
      dsimp only
      cases hse : (runChunks initSt chunks).errorMsg with
      | some e => rfl
      | none =>
        dsimp only
        by_cases hfc : (runChunks initSt chunks).fullContent = ""
        · rw [if_pos hfc]
          rfl
        · rw [if_neg hfc]
          rfl

/-- C7 (witness). -/
theorem default_model_in_registry_witness :
    (generateImage apiRateLimiter 0 "hi" none initialGenerationModel =
        Except.ok ⟨"hi", initialGenerationModel⟩ ∧
      registryHas IMAGE_GENERATION_MODELS initialGenerationModel = true) ∧
    (editImage apiRateLimiter 0 [1, 2] 5 [] "hi" none initialEditModel =
        Except.ok ⟨"hi", [1, 2], initialEditModel⟩ ∧
      registryHas IMAGE_GENERATION_MODELS initialEditModel = true) ∧
    ((sendChatMessage [] "hi" none initialChatModel apiRateLimiter 0
        (FetchOutcome.okStream [])).forwardedModel = some initialChatModel ∧
      registryHas CHAT_MODELS initialChatModel = true) :=
  default_model_in_registry apiRateLimiter 0 "hi" "hi" [] initialGenerationModel
    initialEditModel initialChatModel (FetchOutcome.okStream []) [1, 2] 5 [] [1, 2]
    (by decide) (by decide) (by decide) (by decide) (by decide) (by decide)

/-- C9: a stream that completes without any content deltas resolves
successfully with "No response received", appends no assistant turn and
leaves the just-appended user turn in place — so a successful call can
leave the log ending in an unanswered user turn. -/
theorem empty_stream_no_response (rl : RateLimiter) (now : Nat) (hist : List Turn)
    (p q : String) (modelArg : Option String) (chatCur : String)
    (chunks : List (List Char))
    (hok : (rl.canMakeRequest now).1 = true)
    (hp : sanitizePrompt p = some q)
    (hne : (runChunks initSt chunks).errorMsg = none)
    (hfc : (runChunks initSt chunks).fullContent = "") :
    sendChatMessage hist p modelArg chatCur rl now (FetchOutcome.okStream chunks) =
      ⟨hist ++ [⟨Role.user, q⟩], Except.ok "No response received", true,
       some (modelArg.getD chatCur)⟩ ∧
    endsInUser (hist ++ [⟨Role.user, q⟩]) = true := by
  have hcrl := checkRateLimit_ok rl now hok
  refine ⟨?_, endsInUser_concat_user hist q⟩
  unfold sendChatMessage
  rw [hcrl, hp]
  dsimp only
  rw [hne]
  dsimp only
  rw [if_pos hfc]

/-- C9 (witness): the empty stream. -/
theorem empty_stream_no_response_witness :
    sendChatMessage [] "hi" none initialChatModel apiRateLimiter 0
        (FetchOutcome.okStream []) =
      ⟨[⟨Role.user, "hi"⟩], Except.ok "No response received", true,
       some initialChatModel⟩ ∧
    endsInUser ([] ++ [⟨Role.user, "hi"⟩]) = true :=
  empty_stream_no_response apiRateLimiter 0 [] "hi" "hi" none initialChatModel []
    (by decide) (by decide) (by decide) (by decide)
